import Mathlib

/-!
Verification of the enhanced performance-test engine of qitops-cli-tools
(`src/performance_enhanced.rs`), shallowly embedded in Lean 4.

Modelling conventions:
* Rust `f64` arithmetic is modelled exactly over `ℚ` (the engine only adds,
  multiplies, divides and compares finite values derived from counters and
  measured durations).
* `f64::round` (round half away from zero) coincides with `⌊q + 1/2⌋` on the
  non-negative values the engine rounds; `roundHalfUp` models it.
* Rust `HashMap`s are modelled as association lists; the engine only ever
  looks keys up, inserts, and folds over entries, and none of the verified
  statements depend on iteration order.
* Fallible Rust code (`Result<_, Error>`) is modelled with `Except String`.
* Real time is modelled by the whole-second elapsed counters the scheduler
  actually reads (`Instant::elapsed().as_secs()`).
-/

namespace QitOps

/-- Model of `f64::round` for the non-negative values the engine rounds:
round half away from zero, which on `q ≥ 0` equals `⌊q + 1/2⌋`. -/
def roundHalfUp (q : ℚ) : ℤ :=
  ⌊q + 1/2⌋

/-- A stage of a load profile (`LoadStage` in `performance_enhanced.rs`):
a duration in whole seconds and a target number of virtual users. -/
structure LoadStage where
  duration_secs : ℕ
  target : ℕ
  deriving Repr, DecidableEq

/-- Cumulative duration of the first `i` stages, in seconds. -/
def cumDuration : List LoadStage → ℕ → ℕ
  | _, 0 => 0
  | [], _ + 1 => 0
  | s :: rest, i + 1 => s.duration_secs + cumDuration rest i

/-- The level a stage ramps from in `run_ramping_vus`: the profile's
`initial` value for stage 0, and the previous stage's `target` afterwards
(on a stage transition the code sets `current_vus = target_vus` before
loading the next stage's target). -/
def startLevel (initial : ℕ) (stages : List LoadStage) : ℕ → ℕ
  | 0 => initial
  | i + 1 => (stages.getD i ⟨0, 0⟩).target

/-- Target concurrency of `run_constant_vus` as a function of elapsed
whole seconds.  The loop keeps `current_vus` fixed inside a stage; it is
initialised to `config.load_profile.initial` and reassigned to
`stages[i].target` only when stage `i ≥ 1` is entered.  `none` means the
scheduler has finished all stages and left the loop. -/
def constantVusTarget (current : ℕ) : List LoadStage → ℕ → Option ℕ
  | [], _ => none
  | s :: rest, t =>
    if t < s.duration_secs then some current
    else
      match rest with
      | [] => none
      | s2 :: rest2 => constantVusTarget s2.target (s2 :: rest2) (t - s.duration_secs)

/-- Linear interpolation of `run_ramping_vus`:
`(current + (target - current) * (elapsed / duration)).round() as u32`. -/
def interpVus (current target : ℕ) (elapsed dur : ℕ) : ℕ :=
  (roundHalfUp ((current : ℚ) + ((target : ℚ) - (current : ℚ)) * ((elapsed : ℚ) / (dur : ℚ)))).toNat

/-- Target concurrency of `run_ramping_vus` as a function of elapsed whole
seconds.  Inside a stage the code interpolates between `current_vus` and the
stage's `target`; on a transition `current_vus` becomes the old target and
the next stage's target is loaded.  `none` means the run is complete. -/
def rampingVusTarget (current : ℕ) : List LoadStage → ℕ → Option ℕ
  | [], _ => none
  | s :: rest, t =>
    if t < s.duration_secs then some (interpVus current s.target t s.duration_secs)
    else rampingVusTarget s.target rest (t - s.duration_secs)

/-- Nearest-rank index of `fn percentile`:
`(p / 100.0 * (sorted_values.len() - 1) as f64).round() as usize`.
The `len() - 1` is `usize` (truncated) subtraction, and the cast to `usize`
of the rounded value is exact because the rounded value is non-negative. -/
def pIndex (p : ℚ) (n : ℕ) : ℕ :=
  (roundHalfUp (p / 100 * ((n - 1 : ℕ) : ℚ))).toNat

/-- Model of `fn percentile(sorted_values: &[f64], p: f64) -> f64`.
An empty series returns `0.0`; otherwise the element at the nearest-rank
index of the (already sorted) series.  The source indexes the slice
directly; `getD` agrees with it whenever the index is in bounds, which is
proved below for every `p ≤ 100`. -/
def percentile (sorted_values : List ℚ) (p : ℚ) : ℚ :=
  if sorted_values.isEmpty then 0
  else sorted_values.getD (pIndex p sorted_values.length) 0

/-- The sorted copy `get_metrics_summary` makes before taking percentiles
(`sorted_values.sort_by(|a, b| a.partial_cmp(b).unwrap())`). -/
def sortedCopy (values : List ℚ) : List ℚ :=
  values.insertionSort (· ≤ ·)

/-- Model of `values.iter().fold(f64::INFINITY, |a, &b| a.min(b))`: on a
non-empty series, folding from `+∞` equals folding from the first element. -/
def listMin (values : List ℚ) : ℚ :=
  values.foldl min (values.headD 0)

/-- Model of `values.iter().fold(f64::NEG_INFINITY, |a, &b| a.max(b))`. -/
def listMax (values : List ℚ) : ℚ :=
  values.foldl max (values.headD 0)

/-- The per-series statistics object `get_metrics_summary` emits for a
metric series (`{avg, min, max, p50, p90, p95, p99, count}`). -/
structure SeriesStats where
  avg : ℚ
  min : ℚ
  max : ℚ
  p50 : ℚ
  p90 : ℚ
  p95 : ℚ
  p99 : ℚ
  count : ℕ
  deriving Repr

/-- Per-series summary computation of `get_metrics_summary`.  The source
guards the whole block with `if !values.is_empty()`: an empty series gets no
statistics object at all, hence `none`. -/
def seriesStats (values : List ℚ) : Option SeriesStats :=
  if values.isEmpty then none
  else
    let sorted_values := sortedCopy values
    some
      { avg := values.sum / (values.length : ℚ)
        min := listMin values
        max := listMax values
        p50 := percentile sorted_values 50
        p90 := percentile sorted_values 90
        p95 := percentile sorted_values 95
        p99 := percentile sorted_values 99
        count := values.length }

/-- `struct RequestResult` (the engine's request sample).  `timestamp` is
omitted: it is an opaque `Instant` never read by any verified code path.
The `metrics` and `tags` `HashMap`s are modelled as association lists. -/
structure RequestResult where
  scenario : String
  status : ℕ
  duration : ℚ
  success : Bool
  metrics : List (String × ℚ)
  tags : List (String × String)

/-- `struct MetricsCollector`: all samples, the global named series, and the
per-tag series buckets. -/
structure MetricsCollector where
  results : List RequestResult
  metrics : List (String × List ℚ)
  metrics_by_tag : List (String × List (String × List ℚ))

/-- `MetricsCollector::new()`. -/
def MetricsCollector.new : MetricsCollector :=
  { results := [], metrics := [], metrics_by_tag := [] }

/-- `fn add_metric`: `self.metrics.entry(name).or_insert(Vec::new()).push(value)`
on the association-list model of the map. -/
def addToSeries : List (String × List ℚ) → String → ℚ → List (String × List ℚ)
  | [], name, value => [(name, [value])]
  | (n, vs) :: rest, name, value =>
    if n = name then (n, vs ++ [value]) :: rest
    else (n, vs) :: addToSeries rest name value

/-- `fn add_metric_by_tag`: a nested entry-or-insert followed by a push. -/
def addToTagSeries :
    List (String × List (String × List ℚ)) → String → String → ℚ →
      List (String × List (String × List ℚ))
  | [], tag, name, value => [(tag, [(name, [value])])]
  | (t, m) :: rest, tag, name, value =>
    if t = tag then (t, addToSeries m name value) :: rest
    else (t, m) :: addToTagSeries rest tag name value

/-- Body of the per-tag loop of `fn add_result`: for one `(tagName,
tagValue)` pair, replicate `response_time`, `success` and every custom
metric of the sample into the `"tagName:tagValue"` bucket. -/
def addTagsOfResult (result : RequestResult)
    (acc : List (String × List (String × List ℚ))) (tv : String × String) :
    List (String × List (String × List ℚ)) :=
  let tag_key := tv.1 ++ ":" ++ tv.2
  let b1 := addToTagSeries acc tag_key "response_time" result.duration
  let b2 := addToTagSeries b1 tag_key "success" (if result.success then 1 else 0)
  result.metrics.foldl (fun acc2 nv => addToTagSeries acc2 tag_key nv.1 nv.2) b2

/-- `fn add_result`: appends the basic `response_time`/`success` metrics,
then every custom metric of the sample, replicates all of them into the
`"tagName:tagValue"` bucket of every tag on the sample, and finally stores
the sample itself. -/
def add_result (c : MetricsCollector) (result : RequestResult) : MetricsCollector :=
  let m1 := addToSeries c.metrics "response_time" result.duration
  let m2 := addToSeries m1 "success" (if result.success then 1 else 0)
  let m3 := result.metrics.foldl (fun acc nv => addToSeries acc nv.1 nv.2) m2
  let bt := result.tags.foldl (addTagsOfResult result) c.metrics_by_tag
  { results := c.results ++ [result], metrics := m3, metrics_by_tag := bt }

/-- Per-scenario rollup entry of `get_metrics_summary`. -/
structure ScenarioSummary where
  total_requests : ℕ
  success_count : ℕ
  error_count : ℕ
  success_rate : ℚ

/-- The metrics summary JSON of `get_metrics_summary`, as a structure:
top-level counters, one statistics object per non-empty named series, the
per-tag rollups, and the per-scenario rollups. -/
structure MetricsSummary where
  total_requests : ℕ
  success_count : ℕ
  error_count : ℕ
  metricStats : List (String × SeriesStats)
  by_tag : List (String × List (String × (ℚ × ℚ × ℚ × ℕ)))
  scenarios : List (String × ScenarioSummary)

/-- The per-tag `{avg, min, max, count}` object of `get_metrics_summary`. -/
def tagSeriesStats (values : List ℚ) : Option (ℚ × ℚ × ℚ × ℕ) :=
  if values.isEmpty then none
  else some (values.sum / (values.length : ℚ), listMin values, listMax values, values.length)

/-- The rollup `get_metrics_summary` emits for one scenario name, derived by
filtering the full sample list. -/
def scenarioSummary (results : List RequestResult) (name : String) : ScenarioSummary :=
  let scenario_results := results.filter (fun r => r.scenario = name)
  let success_count := (scenario_results.filter (fun r => r.success)).length
  let total_count := scenario_results.length
  { total_requests := total_count
    success_count := success_count
    error_count := total_count - success_count
    success_rate :=
      if total_count > 0 then (success_count : ℚ) / (total_count : ℚ) * 100 else 0 }

/-- `fn get_metrics_summary`.  The distinct scenario names are collected
through a `HashSet` in the source; `dedup` models it (no verified statement
depends on the order of map/set iteration). -/
def get_metrics_summary (c : MetricsCollector) : MetricsSummary :=
  { total_requests := c.results.length
    success_count := (c.results.filter (fun r => r.success)).length
    error_count := (c.results.filter (fun r => !r.success)).length
    metricStats := c.metrics.filterMap (fun nv => (seriesStats nv.2).map (fun s => (nv.1, s)))
    by_tag := c.metrics_by_tag.map
      (fun tm => (tm.1, tm.2.filterMap (fun nv => (tagSeriesStats nv.2).map (fun s => (nv.1, s)))))
    scenarios := ((c.results.map (fun r => r.scenario)).dedup).map
      (fun name => (name, scenarioSummary c.results name)) }

/-- `struct Scenario` (configuration of one request template). -/
structure Scenario where
  name : String
  target_url : String
  method : String
  headers : Option (List (String × String))
  body : Option String
  weight : ℕ
  tags : Option (List (String × String))

/-- `struct Threshold` (a declarative pass/fail condition). -/
structure Threshold where
  metric : String
  expression : String
  abort_on_fail : Bool

/-- `struct LoadProfile`. -/
structure LoadProfile where
  stages : List LoadStage
  initial : ℕ

/-- `struct EnhancedPerformanceConfig`, restricted to the fields the
verified code paths read. -/
structure EnhancedPerformanceConfig where
  load_profile : LoadProfile
  scenarios : List Scenario
  thresholds : Option (List Threshold)
  success_threshold : ℚ

/-- The accumulating-weight walk of `select_weighted_scenario`. -/
def selectLoop : List Scenario → ℕ → ℕ → Option Scenario
  | [], _, _ => none
  | s :: rest, random_value, cumulative_weight =>
    if random_value < cumulative_weight + s.weight then some s
    else selectLoop rest random_value (cumulative_weight + s.weight)

/-- `fn select_weighted_scenario`.  `random_value` models the
`gen_range(0..total_weight)` draw.  On an empty scenario list the source
executes an unconditional runtime abort ("No scenarios defined") inside the
spawned iteration; `none` models that abort.  A single scenario
short-circuits; otherwise the weight walk runs with the first scenario as
fallback. -/
def select_weighted_scenario (scenarios : List Scenario) (random_value : ℕ) :
    Option Scenario :=
  match scenarios with
  | [] => none
  | s :: rest =>
    if rest.isEmpty then some s
    else
      match selectLoop (s :: rest) random_value 0 with
      | some selected => some selected
      | none => some s

/-- The only validation `run_constant_vus` performs before entering its
dispatch loop: it rejects an empty stage list
(`Error::ValidationError("No stages defined for constant VUs profile")`)
and inspects nothing else — in particular, not the scenario list. -/
def run_constant_vus_validation (stages : List LoadStage) : Except String Unit :=
  if stages.isEmpty then
    Except.error "No stages defined for constant VUs profile"
  else Except.ok ()

/-- Model of Rust `str::split(pattern)`: splits at every matching
character, keeping empty pieces (so a string with `k` separators yields
`k + 1` pieces).  `str::split_whitespace` is this with the whitespace
predicate followed by dropping empty pieces. -/
def splitOnPred (p : Char → Bool) : List Char → List (List Char)
  | [] => [[]]
  | c :: rest =>
    if p c then [] :: splitOnPred p rest
    else
      match splitOnPred p rest with
      | [] => [[c]]
      | g :: gs => (c :: g) :: gs

/-- One `HashMap::insert` on the association-list model: replace the value
under an existing key, or append the binding. -/
def upsertAssoc : List (String × String) → String → String → List (String × String)
  | [], k, v => [(k, v)]
  | (k0, v0) :: rest, k, v =>
    if k0 = k then (k0, v) :: rest
    else (k0, v0) :: upsertAssoc rest k v

/-- `HashMap::extend`: repeated insert, later bindings overriding earlier
ones. -/
def extendAssoc (m : List (String × String)) (user : List (String × String)) :
    List (String × String) :=
  user.foldl (fun acc kv => upsertAssoc acc kv.1 kv.2) m

/-- Decimal digits to a natural number (used by the float-literal parser). -/
def digitsToNat (ds : List Char) : ℕ :=
  ds.foldl (fun a c => 10 * a + (c.toNat - 48)) 0

/-- Exponent digits of a float literal: the whole remainder must be
digits. -/
def parseExpDigits (sign : ℤ) (cs : List Char) : Option ℤ :=
  if cs.isEmpty || !cs.all Char.isDigit then none
  else some (sign * (digitsToNat cs : ℤ))

/-- Signed exponent part of a float literal (after the `e`). -/
def parseExpPart : List Char → Option ℤ
  | '+' :: cs => parseExpDigits 1 cs
  | '-' :: cs => parseExpDigits (-1) cs
  | cs => parseExpDigits 1 cs

/-- Applies an optional trailing exponent to a parsed mantissa. -/
def applyExponent (m : ℚ) : List Char → Option ℚ
  | [] => some m
  | c :: rest =>
    if c = 'e' || c = 'E' then (parseExpPart rest).map (fun e => m * (10 : ℚ) ^ e)
    else none

/-- Unsigned mantissa of a float literal: `digits ['.' digits?] exp?` or
`'.' digits exp?`, with at least one digit overall. -/
def parseMantissa (cs : List Char) : Option ℚ :=
  let ip := cs.takeWhile Char.isDigit
  let cs1 := cs.dropWhile Char.isDigit
  match cs1 with
  | '.' :: cs2 =>
    let fp := cs2.takeWhile Char.isDigit
    let cs3 := cs2.dropWhile Char.isDigit
    if ip.isEmpty && fp.isEmpty then none
    else applyExponent ((digitsToNat ip : ℚ) + (digitsToNat fp : ℚ) / (10 : ℚ) ^ fp.length) cs3
  | _ => if ip.isEmpty then none else applyExponent (digitsToNat ip : ℚ) cs1

/-- Model of `str::parse::<f64>()` on the numeric grammar
(`sign? digits ['.' digits?] [('e'|'E') sign? digits]`, or a fraction-only
mantissa).  The decimal value is taken exactly in `ℚ` (see the header
note on `f64`); the non-finite literals `inf`/`infinity`/`nan`, which are
not representable in `ℚ` and are exercised by no claim, are not modelled. -/
def parseF64 : List Char → Option ℚ
  | '-' :: cs => (parseMantissa cs).map (fun q => -q)
  | '+' :: cs => parseMantissa cs
  | cs => parseMantissa cs

/-- `f64::EPSILON = 2^(-52)`, the tolerance `evaluate_threshold` uses for
its `==`/`!=` comparisons. -/
def f64Epsilon : ℚ :=
  1 / 2 ^ 52

/-- The view of the metrics-summary JSON that `evaluate_threshold` reads:
named groups, each mapping a statistic name to `value.as_f64()`
(`none` when the child is present but not a number). -/
abbrev MetricGroups := List (String × List (String × Option ℚ))

/-- The groups the summary JSON of `get_metrics_summary` exposes to
`evaluate_threshold`: one numeric-statistics group per non-empty series,
plus the `by_tag` and `scenarios` objects whose children are themselves
objects (so `as_f64` yields `none` for them).  The scalar top-level
counters are not groups: a `<stat>` lookup inside a JSON number fails in
the source exactly as a missing group does here (both return `false` with
a warning). -/
def summaryGroups (s : MetricsSummary) : MetricGroups :=
  s.metricStats.map
    (fun ns =>
      (ns.1,
        [("avg", some ns.2.avg), ("min", some ns.2.min), ("max", some ns.2.max),
         ("p50", some ns.2.p50), ("p90", some ns.2.p90), ("p95", some ns.2.p95),
         ("p99", some ns.2.p99), ("count", some (ns.2.count : ℚ))])) ++
  [("by_tag", s.by_tag.map (fun t => (t.1, (none : Option ℚ)))),
   ("scenarios", s.scenarios.map (fun t => (t.1, (none : Option ℚ))))]

/-- The metric-path split of `fn evaluate_threshold`:
`threshold.metric.split('.')`. -/
def metricParts (threshold : Threshold) : List (List Char) :=
  splitOnPred (fun c => c = '.') threshold.metric.toList

/-- The expression split of `fn evaluate_threshold`:
`threshold.expression.split_whitespace()`. -/
def exprTokens (threshold : Threshold) : List (List Char) :=
  (splitOnPred Char.isWhitespace threshold.expression.toList).filter (fun w => !w.isEmpty)

/-- The two-level metric lookup of `fn evaluate_threshold`:
`metrics.get(metric_name)` and then `metric.get(metric_type)`; `none` at
either level is the warned lookup failure of the source (two distinct
`return false` sites). -/
def lookupStat (metrics : MetricGroups) (metric_name metric_type : String) :
    Option (Option ℚ) :=
  match (metrics.find? (fun g => g.1 == metric_name)).map (fun g => g.2) with
  | none => none
  | some group => (group.find? (fun nv => nv.1 == metric_type)).map (fun nv => nv.2)

/-- The lookup of `fn evaluate_threshold` for a threshold's own metric
path (parts 0 and 1 of the split). -/
def thresholdStat (metrics : MetricGroups) (threshold : Threshold) : Option (Option ℚ) :=
  lookupStat metrics (String.mk ((metricParts threshold).getD 0 []))
    (String.mk ((metricParts threshold).getD 1 []))

/-- The parsed numeric operand of a threshold expression (`expr[1]`). -/
def thresholdOperand (threshold : Threshold) : Option ℚ :=
  parseF64 ((exprTokens threshold).getD 1 [])

/-- The operator token of a threshold expression (`expr[0]`). -/
def thresholdOperator (threshold : Threshold) : List Char :=
  (exprTokens threshold).getD 0 []

/-- The operator dispatch of `fn evaluate_threshold`: `<`, `<=`, `>`,
`>=`, `==` and `!=` (the last two within `f64::EPSILON`), any other
operator warned and failed. -/
def applyOp (operator : List Char) (metric_value threshold_value : ℚ) : Bool :=
  if operator = "<".toList then decide (metric_value < threshold_value)
  else if operator = "<=".toList then decide (metric_value ≤ threshold_value)
  else if operator = ">".toList then decide (metric_value > threshold_value)
  else if operator = ">=".toList then decide (metric_value ≥ threshold_value)
  else if operator = "==".toList then decide (|metric_value - threshold_value| < f64Epsilon)
  else if operator = "!=".toList then decide (|metric_value - threshold_value| ≥ f64Epsilon)
  else false

/-- `fn evaluate_threshold`.  Splits the metric path on `'.'` (exactly two
parts required), looks the group and statistic up
(`as_f64().unwrap_or(0.0)` on the found value), splits the expression on
whitespace (exactly two tokens required), parses the numeric operand, and
compares; every malformed case returns `false` after logging a warning. -/
def evaluate_threshold (metrics : MetricGroups) (threshold : Threshold) : Bool :=
  if (metricParts threshold).length ≠ 2 then false
  else
    match thresholdStat metrics threshold with
    | none => false
    | some value =>
      let metric_value := value.getD 0
      if (exprTokens threshold).length ≠ 2 then false
      else
        match thresholdOperand threshold with
        | none => false
        | some threshold_value =>
          applyOp (thresholdOperator threshold) metric_value threshold_value

/-- Characters `http::Method::from_bytes` accepts: HTTP token characters. -/
def isMethodTokenChar (c : Char) : Bool :=
  c.isAlphanum || "!#$%&'*+-.^_`|~".toList.contains c

/-- `fn execute_scenario`.  The HTTP transport is abstracted as `send`,
returning either a transport error (connection refused, timeout — the
`request.send().await?` propagation) or a status and a measured duration.
An invalid method name fails before the transport is touched; a successful
call is classified by `200 ≤ status < 300`, records the duration and status
code again as custom metrics, and tags the sample with the scenario name,
method and status, user tags overriding synthetic ones on key collision
(`HashMap::extend`). -/
def execute_scenario (send : Scenario → Except String (ℕ × ℚ)) (scenario : Scenario) :
    Except String RequestResult :=
  if !(scenario.method.toList ≠ [] ∧ scenario.method.toList.all isMethodTokenChar : Bool) then
    Except.error ("Invalid HTTP method: " ++ scenario.method)
  else
    match send scenario with
    | Except.error e => Except.error e
    | Except.ok sd =>
      let status := sd.1
      let duration := sd.2
      let success := decide (200 ≤ status ∧ status < 300)
      let metrics : List (String × ℚ) :=
        [("response_time", duration), ("status_code", (status : ℚ))]
      let tags0 : List (String × String) :=
        [("scenario", scenario.name), ("method", scenario.method), ("status", toString status)]
      let tags :=
        match scenario.tags with
        | none => tags0
        | some user_tags => extendAssoc tags0 user_tags
      Except.ok
        { scenario := scenario.name, status := status, duration := duration,
          success := success, metrics := metrics, tags := tags }

/-- How one dispatched iteration feeds the collector in `run_constant_vus` /
`run_ramping_vus`: `if let Ok(result) { metrics.add_result(result) }` —
an error outcome records nothing. -/
def recordIteration (c : MetricsCollector) (outcome : Except String RequestResult) :
    MetricsCollector :=
  match outcome with
  | Except.ok result => add_result c result
  | Except.error _ => c

/-- The success rate `TestRunner::run` computes from the summary counters:
`success_count / total_requests * 100`, and `0.0` when no request was
recorded. -/
def success_rate_of (success_count total_requests : ℕ) : ℚ :=
  if total_requests > 0 then (success_count : ℚ) / (total_requests : ℚ) * 100 else 0

/-- The `TestResult` that `TestRunner::run` returns, restricted to the
fields the claims are about (name, derived status, recorded threshold
results). -/
structure TestOutcome where
  name : String
  status : String
  threshold_results : List (String × String × Bool)

/-- The result assembly of `TestRunner::run` for `EnhancedPerformanceRunner`,
applied to the collector the load test produced: derives the success rate
from the summary counters, sets `status` to `"passed"` iff the rate meets
`success_threshold`, and records one `{metric, expression, passed}` entry
per configured threshold (a breached `abort_on_fail` threshold only logs). -/
def run (name : String) (c : MetricsCollector) (success_threshold : ℚ)
    (thresholds : Option (List Threshold)) : TestOutcome :=
  let metrics_summary := get_metrics_summary c
  let success_rate := success_rate_of metrics_summary.success_count metrics_summary.total_requests
  let status := if success_rate ≥ success_threshold then "passed" else "failed"
  let threshold_results :=
    match thresholds with
    | none => []
    | some ts =>
      ts.map (fun t => (t.metric, t.expression, evaluate_threshold (summaryGroups metrics_summary) t))
  { name := name, status := status, threshold_results := threshold_results }

end QitOps

namespace QitOps

/-- Inside stage `i`, `run_constant_vus` serves the profile's `initial`
value when `i = 0` and `stages[i].target` otherwise. -/
theorem constantVusTarget_stage :
    ∀ (stages : List LoadStage) (initial i u : ℕ),
      i < stages.length → u < (stages.getD i ⟨0, 0⟩).duration_secs →
      constantVusTarget initial stages (cumDuration stages i + u) =
        some (if i = 0 then initial else (stages.getD i ⟨0, 0⟩).target) := by
  intro stages
  induction stages with
  | nil => intro initial i u hi _; exact absurd hi (by simp)
  | cons s rest ih =>
    intro initial i u hi hu
    match i with
    | 0 =>
      have hu0 : u < s.duration_secs := by simpa [List.getD] using hu
      rw [cumDuration, Nat.zero_add, constantVusTarget.eq_def]
      simp [hu0]
    | j + 1 =>
      have hj : j < rest.length := by simpa using hi
      have hu' : u < (rest.getD j ⟨0, 0⟩).duration_secs := by
        simpa [List.getD] using hu
      match rest, hj, hu', ih with
      | s2 :: rest2, hj, hu', ih =>
        have ht : ¬ (s.duration_secs + (cumDuration (s2 :: rest2) j + u) < s.duration_secs) := by
          omega
        rw [cumDuration, Nat.add_assoc, constantVusTarget.eq_def]
        simp only [if_neg ht]
        rw [Nat.add_sub_cancel_left]
        rw [ih s2.target j u hj hu']
        match j with
        | 0 => simp [List.getD]
        | k + 1 => simp [List.getD]

/-- Inside stage `i`, `run_ramping_vus` interpolates between the stage's
start level (`initial` for stage 0, the previous target afterwards) and the
stage's own target. -/
theorem rampingVusTarget_stage :
    ∀ (stages : List LoadStage) (initial i u : ℕ),
      i < stages.length → u < (stages.getD i ⟨0, 0⟩).duration_secs →
      rampingVusTarget initial stages (cumDuration stages i + u) =
        some (interpVus (startLevel initial stages i) (stages.getD i ⟨0, 0⟩).target
          u (stages.getD i ⟨0, 0⟩).duration_secs) := by
  intro stages
  induction stages with
  | nil => intro initial i u hi _; exact absurd hi (by simp)
  | cons s rest ih =>
    intro initial i u hi hu
    match i with
    | 0 =>
      have hu0 : u < s.duration_secs := by simpa [List.getD] using hu
      rw [cumDuration, Nat.zero_add, rampingVusTarget.eq_def]
      simp [hu0, List.getD, startLevel]
    | j + 1 =>
      have hj : j < rest.length := by simpa using hi
      have hu' : u < (rest.getD j ⟨0, 0⟩).duration_secs := by
        simpa [List.getD] using hu
      have ht : ¬ (s.duration_secs + (cumDuration rest j + u) < s.duration_secs) := by
        omega
      rw [cumDuration, Nat.add_assoc, rampingVusTarget.eq_def]
      simp only [if_neg ht]
      rw [Nat.add_sub_cancel_left]
      rw [ih s.target j u hj hu']
      match j with
      | 0 => simp [List.getD, startLevel]
      | k + 1 => simp [List.getD, startLevel]

/-- At local time 0 of a stage, the interpolation returns the start level
exactly: `round(start + (target - start) * 0) = start`. -/
theorem interpVus_zero (current target dur : ℕ) :
    interpVus current target 0 dur = current := by
  simp only [interpVus, roundHalfUp, Nat.cast_zero, zero_div, mul_zero, add_zero]
  have hfl : ⌊(current : ℚ) + 1 / 2⌋ = (current : ℤ) := by
    rw [add_comm, Int.floor_add_nat]
    norm_num
  rw [hfl, Int.toNat_natCast]

theorem sortedCopy_perm (values : List ℚ) : List.Perm (sortedCopy values) values :=
  List.perm_insertionSort _ values

theorem sortedCopy_length (values : List ℚ) :
    (sortedCopy values).length = values.length :=
  (sortedCopy_perm values).length_eq

theorem sortedCopy_sorted (values : List ℚ) : (sortedCopy values).Sorted (· ≤ ·) :=
  List.sorted_insertionSort _ values

/-- The nearest-rank index never exceeds `n - 1` for `p ≤ 100`. -/
theorem pIndex_le_pred (p : ℚ) (n : ℕ) (hp0 : 0 ≤ p) (hp1 : p ≤ 100) :
    pIndex p n ≤ n - 1 := by
  unfold pIndex roundHalfUp
  have hm : (0 : ℚ) ≤ ((n - 1 : ℕ) : ℚ) := Nat.cast_nonneg _
  have h1 : p / 100 ≤ 1 := (div_le_one (by norm_num)).mpr hp1
  have hx : p / 100 * ((n - 1 : ℕ) : ℚ) ≤ ((n - 1 : ℕ) : ℚ) := by
    calc p / 100 * ((n - 1 : ℕ) : ℚ) ≤ 1 * ((n - 1 : ℕ) : ℚ) :=
          mul_le_mul_of_nonneg_right h1 hm
      _ = ((n - 1 : ℕ) : ℚ) := one_mul _
  have hconst : ⌊((n - 1 : ℕ) : ℚ) + 1 / 2⌋ = ((n - 1 : ℕ) : ℤ) := by
    rw [add_comm, Int.floor_add_nat]
    norm_num
  have hfl : ⌊p / 100 * ((n - 1 : ℕ) : ℚ) + 1 / 2⌋ ≤ ((n - 1 : ℕ) : ℤ) := by
    rw [← hconst]
    exact Int.floor_le_floor (by linarith)
  calc (⌊p / 100 * ((n - 1 : ℕ) : ℚ) + 1 / 2⌋).toNat
      ≤ (((n - 1 : ℕ) : ℤ)).toNat := Int.toNat_le_toNat hfl
    _ = n - 1 := Int.toNat_natCast _

/-- For a non-empty series and `0 ≤ p ≤ 100`, the nearest-rank index is in
bounds: `percentile` never faults where the engine calls it. -/
theorem pIndex_lt (p : ℚ) (n : ℕ) (hn : 0 < n) (hp0 : 0 ≤ p) (hp1 : p ≤ 100) :
    pIndex p n < n :=
  lt_of_le_of_lt (pIndex_le_pred p n hp0 hp1) (Nat.sub_lt hn one_pos)

/-- The nearest-rank index is monotone in the percentile level. -/
theorem pIndex_mono (n : ℕ) {p q : ℚ} (hp0 : 0 ≤ p) (hpq : p ≤ q) :
    pIndex p n ≤ pIndex q n := by
  unfold pIndex roundHalfUp
  apply Int.toNat_le_toNat
  apply Int.floor_le_floor
  have hm : (0 : ℚ) ≤ ((n - 1 : ℕ) : ℚ) := Nat.cast_nonneg _
  have hd : p / 100 ≤ q / 100 := by linarith
  have := mul_le_mul_of_nonneg_right hd hm
  linarith

theorem percentile_eq_get (l : List ℚ) (p : ℚ) (hl : l ≠ [])
    (h : pIndex p l.length < l.length) :
    percentile l p = l.get ⟨pIndex p l.length, h⟩ := by
  unfold percentile
  rw [if_neg (by simpa [List.isEmpty_iff] using hl)]
  exact List.getD_eq_get l 0 h

theorem percentile_mem (l : List ℚ) (p : ℚ) (hl : l ≠ [])
    (h : pIndex p l.length < l.length) :
    percentile l p ∈ l := by
  rw [percentile_eq_get l p hl h]
  exact List.get_mem l _ h

/-- On a sorted non-empty series, percentiles are monotone in the level. -/
theorem percentile_mono (l : List ℚ) (hs : l.Sorted (· ≤ ·)) (hl : l ≠ [])
    {p q : ℚ} (hp0 : 0 ≤ p) (hpq : p ≤ q) (hq : q ≤ 100) :
    percentile l p ≤ percentile l q := by
  have hn : 0 < l.length := List.length_pos.mpr hl
  have hip : pIndex p l.length < l.length :=
    pIndex_lt p l.length hn hp0 (hpq.trans hq)
  have hiq : pIndex q l.length < l.length :=
    pIndex_lt q l.length hn (hp0.trans hpq) hq
  rw [percentile_eq_get l p hl hip, percentile_eq_get l q hl hiq]
  exact hs.rel_get_of_le (by exact pIndex_mono l.length hp0 hpq)

/-- Unfolding of `seriesStats` on a non-empty series. -/
theorem seriesStats_some {values : List ℚ} {st : SeriesStats}
    (h : seriesStats values = some st) :
    values ≠ [] ∧
    st.p50 = percentile (sortedCopy values) 50 ∧
    st.p90 = percentile (sortedCopy values) 90 ∧
    st.p95 = percentile (sortedCopy values) 95 ∧
    st.p99 = percentile (sortedCopy values) 99 ∧
    st.count = values.length := by
  unfold seriesStats at h
  by_cases he : values.isEmpty
  · rw [if_pos he] at h
    cases h
  · rw [if_neg he] at h
    cases h
    exact ⟨by simpa [List.isEmpty_iff] using he, rfl, rfl, rfl, rfl, rfl⟩

/-- Length of the named series in a metrics map (0 when absent). -/
def seriesLen : List (String × List ℚ) → String → ℕ
  | [], _ => 0
  | (n, vs) :: rest, name => if n = name then vs.length else seriesLen rest name

/-- Number of entries a custom-metrics list holds under a name. -/
def countKey : List (String × ℚ) → String → ℕ
  | [], _ => 0
  | (n, _) :: rest, name => (if n = name then 1 else 0) + countKey rest name

/-- Length of the named series inside the named tag bucket (0 when either
is absent). -/
def tagSeriesLen : List (String × List (String × List ℚ)) → String → String → ℕ
  | [], _, _ => 0
  | (t, m) :: rest, tag, name =>
    if t = tag then seriesLen m name else tagSeriesLen rest tag name

/-- Number of tags on a sample whose `"tagName:tagValue"` bucket key equals
`key`. -/
def countTagPair : List (String × String) → String → ℕ
  | [], _ => 0
  | (tn, tv) :: rest, key => (if tn ++ ":" ++ tv = key then 1 else 0) + countTagPair rest key

/-- The collector state after a run has recorded the given samples, in
completion order. -/
def runCollector (results : List RequestResult) : MetricsCollector :=
  results.foldl add_result MetricsCollector.new

/-- One `add_metric` call grows exactly the targeted series by one. -/
theorem seriesLen_addToSeries (m : List (String × List ℚ)) (name : String) (v : ℚ)
    (n' : String) :
    seriesLen (addToSeries m name v) n' = seriesLen m n' + (if name = n' then 1 else 0) := by
  induction m with
  | nil =>
    simp only [addToSeries, seriesLen]
    by_cases h : name = n' <;> simp [h]
  | cons kv rest ih =>
    obtain ⟨k, vs⟩ := kv
    simp only [addToSeries]
    by_cases hk : k = name
    · rw [if_pos hk]
      simp only [seriesLen]
      by_cases h2 : k = n'
      · rw [if_pos h2, if_pos h2, if_pos (hk.symm.trans h2)]
        simp
      · rw [if_neg h2, if_neg h2, if_neg (fun h => h2 (hk.trans h))]
        omega
    · rw [if_neg hk]
      simp only [seriesLen]
      by_cases h2 : k = n'
      · rw [if_pos h2, if_pos h2, if_neg (fun h => hk (h2.trans h.symm))]
        omega
      · rw [if_neg h2, if_neg h2]
        exact ih

/-- Folding the custom metrics of a sample grows a series by the number of
custom entries under that name. -/
theorem seriesLen_foldl_metrics (cs : List (String × ℚ)) :
    ∀ (m : List (String × List ℚ)) (n' : String),
      seriesLen (cs.foldl (fun acc nv => addToSeries acc nv.1 nv.2) m) n' =
        seriesLen m n' + countKey cs n' := by
  induction cs with
  | nil => intro m n'; simp [countKey]
  | cons c rest ih =>
    intro m n'
    obtain ⟨cn, cv⟩ := c
    simp only [List.foldl_cons, countKey]
    rw [ih, seriesLen_addToSeries]
    omega

/-- Effect of one `add_result` on a global series: one direct
`response_time` append, one direct `success` append, plus one append per
custom-metric entry under that name. -/
theorem seriesLen_add_result (c : MetricsCollector) (r : RequestResult) (n' : String) :
    seriesLen (add_result c r).metrics n' =
      seriesLen c.metrics n' + (if "response_time" = n' then 1 else 0) +
        (if "success" = n' then 1 else 0) + countKey r.metrics n' := by
  simp only [add_result]
  rw [seriesLen_foldl_metrics, seriesLen_addToSeries, seriesLen_addToSeries]

/-- One `add_metric_by_tag` call grows exactly the targeted bucket series
by one. -/
theorem tagSeriesLen_addToTagSeries
    (bt : List (String × List (String × List ℚ))) (tag name : String) (v : ℚ)
    (tag' n' : String) :
    tagSeriesLen (addToTagSeries bt tag name v) tag' n' =
      tagSeriesLen bt tag' n' + (if tag = tag' ∧ name = n' then 1 else 0) := by
  induction bt with
  | nil =>
    simp only [addToTagSeries, tagSeriesLen]
    by_cases ht : tag = tag'
    · rw [if_pos ht]
      simp only [seriesLen]
      by_cases hn : name = n' <;> simp [ht, hn]
    · rw [if_neg ht]
      simp [ht]
  | cons tm rest ih =>
    obtain ⟨t, m⟩ := tm
    simp only [addToTagSeries]
    by_cases ht : t = tag
    · rw [if_pos ht]
      simp only [tagSeriesLen]
      by_cases ht2 : t = tag'
      · rw [if_pos ht2, if_pos ht2, seriesLen_addToSeries]
        have htt : tag = tag' := ht.symm.trans ht2
        by_cases hn : name = n' <;> simp [htt, hn]
      · rw [if_neg ht2, if_neg ht2,
          if_neg (fun hc => ht2 (ht.trans hc.1)), Nat.add_zero]
    · rw [if_neg ht]
      simp only [tagSeriesLen]
      by_cases ht2 : t = tag'
      · rw [if_pos ht2, if_pos ht2,
          if_neg (fun hc => ht (ht2.trans hc.1.symm)), Nat.add_zero]
      · rw [if_neg ht2, if_neg ht2]
        exact ih

/-- Folding the custom metrics of a sample into one bucket grows that
bucket's series by the number of custom entries under the name. -/
theorem tagSeriesLen_foldl_metrics (cs : List (String × ℚ)) :
    ∀ (bt : List (String × List (String × List ℚ))) (k tag' n' : String),
      tagSeriesLen (cs.foldl (fun acc2 nv => addToTagSeries acc2 k nv.1 nv.2) bt) tag' n' =
        tagSeriesLen bt tag' n' + (if k = tag' then countKey cs n' else 0) := by
  induction cs with
  | nil => intro bt k tag' n'; simp [countKey]
  | cons c rest ih =>
    intro bt k tag' n'
    obtain ⟨cn, cv⟩ := c
    simp only [List.foldl_cons, countKey]
    rw [ih, tagSeriesLen_addToTagSeries]
    by_cases hk : k = tag'
    · by_cases hn : cn = n' <;> simp [hk, hn] <;> omega
    · simp [hk]

/-- Effect of the whole per-tag loop of `add_result` on one bucket's
`response_time` series: each matching tag occurrence contributes the direct
append plus the custom-metric appends. -/
theorem tagSeriesLen_tags_fold (r : RequestResult) :
    ∀ (tags : List (String × String)) (bt : List (String × List (String × List ℚ)))
      (k : String),
      tagSeriesLen (tags.foldl (addTagsOfResult r) bt) k "response_time" =
        tagSeriesLen bt k "response_time" +
          (1 + countKey r.metrics "response_time") * countTagPair tags k := by
  intro tags
  induction tags with
  | nil => intro bt k; simp [countTagPair]
  | cons tv rest ih =>
    intro bt k
    obtain ⟨tn, tvv⟩ := tv
    simp only [List.foldl_cons, countTagPair]
    rw [ih]
    simp only [addTagsOfResult]
    rw [tagSeriesLen_foldl_metrics, tagSeriesLen_addToTagSeries, tagSeriesLen_addToTagSeries]
    have hsr : ¬(tn ++ ":" ++ tvv = k ∧ "success" = "response_time") :=
      fun hc => absurd hc.2 (by decide)
    by_cases hk : tn ++ ":" ++ tvv = k
    · simp only [and_true, and_false, if_false, if_pos hk, if_neg hsr]
      ring
    · simp only [and_true, and_false, if_false, if_neg hk, if_neg hsr]
      ring

/-- Unfolding of the status derivation in `TestRunner::run`. -/
theorem run_status_def (name : String) (c : MetricsCollector) (success_threshold : ℚ)
    (thresholds : Option (List Threshold)) :
    (run name c success_threshold thresholds).status =
      if success_rate_of (get_metrics_summary c).success_count
          (get_metrics_summary c).total_requests ≥ success_threshold
      then "passed" else "failed" :=
  rfl

/-- A fixture scenario used by concrete instantiations. -/
def sampleScenario : Scenario :=
  { name := "checkout", target_url := "http://localhost/checkout", method := "GET",
    headers := none, body := none, weight := 1, tags := none }

/-- C1: for every completed run, the outcome's status is `"passed"` iff the
measured success rate (`success_count / total_requests * 100`, taken as 0
when `total_requests` is 0) is at least `success_threshold`; the evaluated
thresholds are recorded in the outcome but never alter the status. -/
theorem C1_status_iff_success_rate :
    ∀ (name : String) (c : MetricsCollector) (success_threshold : ℚ)
      (thresholds : Option (List Threshold)),
      ((run name c success_threshold thresholds).status = "passed" ↔
        success_rate_of (get_metrics_summary c).success_count
          (get_metrics_summary c).total_requests ≥ success_threshold) ∧
      (run name c success_threshold thresholds).status =
        (run name c success_threshold none).status ∧
      ∀ ts : List Threshold,
        (run name c success_threshold (some ts)).threshold_results =
          ts.map (fun t => (t.metric, t.expression,
            evaluate_threshold (summaryGroups (get_metrics_summary c)) t)) := by
  intro name c th ts
  refine ⟨?_, ?_, fun l => rfl⟩
  · rw [run_status_def]
    by_cases h : success_rate_of (get_metrics_summary c).success_count
        (get_metrics_summary c).total_requests ≥ th
    · rw [if_pos h]
      exact ⟨fun _ => h, fun _ => rfl⟩
    · rw [if_neg h]
      exact ⟨fun hs => absurd hs (by decide), fun hge => absurd hge h⟩
  · rw [run_status_def, run_status_def]

/-- C2 (amended): for a ConstantVUs profile with a non-empty stage list,
during stage 0 the target concurrency is the profile's `initial` value,
held until `stages[0].duration_secs` elapses; during each later stage `i`
it equals `stages[i].target`, held until that stage's duration elapses;
in particular, for stages `[(30s,25),(60s,100)]` and initial value 1, at
elapsed time t = 31 s the target is 100. -/
theorem C2_constant_vus_step_targets :
    (∀ (initial : ℕ) (stages : List LoadStage) (i u : ℕ),
      i < stages.length → u < (stages.getD i ⟨0, 0⟩).duration_secs →
      constantVusTarget initial stages (cumDuration stages i + u) =
        some (if i = 0 then initial else (stages.getD i ⟨0, 0⟩).target)) ∧
    constantVusTarget 1 [⟨30, 25⟩, ⟨60, 100⟩] 31 = some 100 :=
  ⟨fun initial stages i u hi hu => constantVusTarget_stage stages initial i u hi hu,
    by decide⟩

/-- C2 counterexample: with the serde-default initial value 1 and stages
`[(30s,25),(60s,100)]`, at t = 0 s — an instant during stage 0 — the target
is the initial value 1, not `stages[0].target = 25` as the claim
requires. -/
theorem C2_counterexample_stage_zero :
    ¬ constantVusTarget 1 [⟨30, 25⟩, ⟨60, 100⟩] 0 = some 25 := by
  decide

/-- Witness for C2: stage 1 of `[(30s,25),(60s,100)]` starts at t = 30 s,
so at t = 31 s the target is `stages[1].target = 100`. -/
theorem C2_witness :
    constantVusTarget 1 [⟨30, 25⟩, ⟨60, 100⟩] (cumDuration [⟨30, 25⟩, ⟨60, 100⟩] 1 + 1) =
      some 100 :=
  C2_constant_vus_step_targets.1 1 [⟨30, 25⟩, ⟨60, 100⟩] 1 1 (by decide) (by decide)

/-- C3: for a RampingVUs profile, inside stage `i` of duration `d` the
target at local elapsed time `u < d` is
`round(start + (end - start) * (u / d))` where `start` is the stage's start
level and `end = stages[i].target`; at an interior stage boundary the
target equals the finished stage's target exactly; and ramping 10 → 100
VUs over 60 s yields target 55 at t = 30 s. -/
theorem C3_ramping_interpolation :
    (∀ (initial : ℕ) (stages : List LoadStage) (i u : ℕ),
      i < stages.length → u < (stages.getD i ⟨0, 0⟩).duration_secs →
      rampingVusTarget initial stages (cumDuration stages i + u) =
        some (interpVus (startLevel initial stages i) (stages.getD i ⟨0, 0⟩).target
          u (stages.getD i ⟨0, 0⟩).duration_secs)) ∧
    (∀ (initial : ℕ) (stages : List LoadStage) (i : ℕ),
      i + 1 < stages.length → 0 < (stages.getD (i + 1) ⟨0, 0⟩).duration_secs →
      rampingVusTarget initial stages (cumDuration stages (i + 1)) =
        some (stages.getD i ⟨0, 0⟩).target) ∧
    rampingVusTarget 10 [⟨60, 100⟩] 30 = some 55 := by
  refine ⟨fun initial stages i u hi hu => rampingVusTarget_stage stages initial i u hi hu,
    ?_, ?_⟩
  · intro initial stages i hi hd
    have h := rampingVusTarget_stage stages initial (i + 1) 0 hi hd
    rw [Nat.add_zero] at h
    rw [h, interpVus_zero]
    rfl
  · simp only [rampingVusTarget, interpVus, roundHalfUp]
    norm_num
    rfl

/-- Witness for C3: the interpolation clause applied to the 10 → 100 over
60 s stage at u = 30. -/
theorem C3_witness :
    rampingVusTarget 10 [⟨60, 100⟩] (cumDuration [⟨60, 100⟩] 0 + 30) =
      some (interpVus 10 100 30 60) :=
  C3_ramping_interpolation.1 10 [⟨60, 100⟩] 0 30 (by decide) (by decide)

/-- C7 (code bug): with a valid stage list and an empty scenario list, the
only pre-run validation the engine performs (`run_constant_vus` checking
`stages.is_empty()`) succeeds, and the empty scenario list is first
discovered inside `select_weighted_scenario` — the source aborts there at
selection time (modelled by `none`) instead of failing the configuration
before the run. -/
theorem C7_empty_scenarios_not_validated :
    run_constant_vus_validation [⟨1, 5⟩] = Except.ok () ∧
    ∀ random_value : ℕ, select_weighted_scenario [] random_value = none :=
  ⟨rfl, fun _ => rfl⟩

/-- C8: an empty MetricsCollector summarises without error to all-zero
counters and no per-metric, per-tag or per-scenario entries, so every
statistic present in the summary is 0; the percentile helper likewise
returns 0 on an empty series rather than faulting. -/
theorem C8_empty_collector_summary :
    get_metrics_summary MetricsCollector.new =
      { total_requests := 0, success_count := 0, error_count := 0,
        metricStats := [], by_tag := [], scenarios := [] } ∧
    ∀ p : ℚ, percentile [] p = 0 :=
  ⟨rfl, fun _ => rfl⟩

/-- C9: when the HTTP transport fails (connection refused, timeout — the
`send` capability returns an error), `execute_scenario` produces no
sample, and the iteration leaves the MetricsCollector — results, metrics
and metrics_by_tag alike — unchanged. -/
theorem C9_transport_failure_drops_iteration :
    ∀ (c : MetricsCollector) (send : Scenario → Except String (ℕ × ℚ))
      (scenario : Scenario) (e : String),
      send scenario = Except.error e →
      (∀ r : RequestResult, execute_scenario send scenario ≠ Except.ok r) ∧
      recordIteration c (execute_scenario send scenario) = c := by
  intro c send scenario e hsend
  have hfail : ∃ err, execute_scenario send scenario = Except.error err := by
    unfold execute_scenario
    split
    · exact ⟨_, rfl⟩
    · rw [hsend]
      exact ⟨e, rfl⟩
  obtain ⟨err, herr⟩ := hfail
  rw [herr]
  exact ⟨fun r h => Except.noConfusion h, rfl⟩

/-- Witness for C9: a transport that refuses every connection leaves a
fresh collector untouched. -/
theorem C9_witness :
    (fun _ : Scenario => (Except.error "connection refused" : Except String (ℕ × ℚ)))
        sampleScenario = Except.error "connection refused" ∧
    recordIteration MetricsCollector.new
        (execute_scenario (fun _ => Except.error "connection refused") sampleScenario) =
      MetricsCollector.new :=
  ⟨rfl,
    (C9_transport_failure_drops_iteration MetricsCollector.new
      (fun _ => Except.error "connection refused") sampleScenario "connection refused" rfl).2⟩

/-- Folding `add_result` over a run's samples: the global `response_time`
series gains two entries per sample that carries exactly one custom
`response_time` metric and no custom `success` metric, the `success`
series one. -/
theorem runCollector_counts :
    ∀ (results : List RequestResult) (c : MetricsCollector),
      (∀ r ∈ results,
        countKey r.metrics "response_time" = 1 ∧ countKey r.metrics "success" = 0) →
      seriesLen (results.foldl add_result c).metrics "response_time" =
        seriesLen c.metrics "response_time" + 2 * results.length ∧
      seriesLen (results.foldl add_result c).metrics "success" =
        seriesLen c.metrics "success" + results.length := by
  intro results
  induction results with
  | nil => intro c _; simp
  | cons r rest ih =>
    intro c h
    have hr := h r (by simp)
    have hrest : ∀ x ∈ rest,
        countKey x.metrics "response_time" = 1 ∧ countKey x.metrics "success" = 0 :=
      fun x hx => h x (by simp [hx])
    obtain ⟨h1, h2⟩ := ih (add_result c r) hrest
    simp only [List.foldl_cons, List.length_cons]
    rw [h1, h2, seriesLen_add_result, seriesLen_add_result]
    rw [if_pos rfl, if_neg (show ¬("success" = "response_time") by decide),
      if_neg (show ¬("response_time" = "success") by decide), if_pos rfl, hr.1, hr.2]
    omega

/-- A fixture sample shaped like the samples `execute_scenario` emits. -/
def sampleResult : RequestResult :=
  { scenario := "checkout", status := 200, duration := 0, success := true,
    metrics := [("response_time", 0), ("status_code", 200)],
    tags := [("scenario", "checkout")] }

/-- The sample `execute_scenario` produces for `sampleScenario` under a
transport answering status 200 with duration 0. -/
def okSampleResult : RequestResult :=
  { scenario := "checkout", status := 200, duration := 0,
    success := decide (200 ≤ 200 ∧ 200 < 300),
    metrics := [("response_time", (0 : ℚ)), ("status_code", ((200 : ℕ) : ℚ))],
    tags := [("scenario", "checkout"), ("method", "GET"), ("status", toString (200 : ℕ))] }

/-- C10: every sample `execute_scenario` emits carries exactly one custom
`response_time` entry and no custom `success` entry; therefore `add_result`
appends the duration to the global `response_time` series twice (once
directly, once from the custom metrics) and likewise twice into every
matching per-tag bucket, so after any run the `response_time` series —
whose length is what the summary reports as its `count` — holds twice the
number of recorded requests, while the `success` series holds exactly one
entry per recorded request. -/
theorem C10_response_time_double_count :
    (∀ (send : Scenario → Except String (ℕ × ℚ)) (scenario : Scenario) (r : RequestResult),
      execute_scenario send scenario = Except.ok r →
      countKey r.metrics "response_time" = 1 ∧ countKey r.metrics "success" = 0) ∧
    (∀ results : List RequestResult,
      (∀ r ∈ results,
        countKey r.metrics "response_time" = 1 ∧ countKey r.metrics "success" = 0) →
      seriesLen (runCollector results).metrics "response_time" = 2 * results.length ∧
      seriesLen (runCollector results).metrics "success" = results.length) ∧
    (∀ (values : List ℚ) (st : SeriesStats), seriesStats values = some st →
      st.count = values.length) ∧
    (∀ (c : MetricsCollector) (r : RequestResult) (k : String),
      countKey r.metrics "response_time" = 1 →
      tagSeriesLen (add_result c r).metrics_by_tag k "response_time" =
        tagSeriesLen c.metrics_by_tag k "response_time" + 2 * countTagPair r.tags k) := by
  refine ⟨?_, ?_, ?_, ?_⟩
  · intro send scenario r h
    unfold execute_scenario at h
    split at h
    · cases h
    · match hsend : send scenario with
      | Except.error e =>
        rw [hsend] at h
        cases h
      | Except.ok sd =>
        rw [hsend] at h
        cases h
        simp [countKey]
  · intro results h
    have hc := runCollector_counts results MetricsCollector.new h
    simpa [runCollector, MetricsCollector.new, seriesLen] using hc
  · intro values st h
    exact (seriesStats_some h).2.2.2.2.2
  · intro c r k h1
    simp only [add_result]
    rw [tagSeriesLen_tags_fold, h1]

/-- Witness for C10: one recorded sample yields a `response_time` series of
length 2, a `success` series of length 1, and a doubled per-tag bucket. -/
theorem C10_witness :
    execute_scenario (fun _ => Except.ok (200, (0 : ℚ))) sampleScenario =
        Except.ok okSampleResult ∧
    countKey okSampleResult.metrics "response_time" = 1 ∧
    (∀ r ∈ [sampleResult],
      countKey r.metrics "response_time" = 1 ∧ countKey r.metrics "success" = 0) ∧
    seriesLen (runCollector [sampleResult]).metrics "response_time" =
      2 * List.length [sampleResult] ∧
    seriesLen (runCollector [sampleResult]).metrics "success" =
      List.length [sampleResult] ∧
    tagSeriesLen (add_result MetricsCollector.new sampleResult).metrics_by_tag
        "scenario:checkout" "response_time" =
      tagSeriesLen MetricsCollector.new.metrics_by_tag "scenario:checkout" "response_time" +
        2 * countTagPair sampleResult.tags "scenario:checkout" := by
  have hok : execute_scenario (fun _ => Except.ok (200, (0 : ℚ))) sampleScenario =
      Except.ok okSampleResult := rfl
  have hall : ∀ r ∈ [sampleResult],
      countKey r.metrics "response_time" = 1 ∧ countKey r.metrics "success" = 0 := by
    simp [sampleResult, countKey]
  have hkey : countKey sampleResult.metrics "response_time" = 1 := rfl
  refine ⟨hok,
    (C10_response_time_double_count.1 (fun _ => Except.ok (200, (0 : ℚ)))
      sampleScenario okSampleResult hok).1,
    hall,
    (C10_response_time_double_count.2.1 [sampleResult] hall).1,
    (C10_response_time_double_count.2.1 [sampleResult] hall).2,
    C10_response_time_double_count.2.2.2 MetricsCollector.new sampleResult
      "scenario:checkout" hkey⟩

/-- C4: the reported percentile statistics are nearest-rank: for every
non-empty series the reported pN equals the element of the sorted copy at
index `round(p/100 * (n - 1))`, an index that is always in bounds for the
levels the engine uses; the percentile of an empty series is 0. -/
theorem C4_percentile_nearest_rank :
    (∀ p : ℚ, percentile [] p = 0) ∧
    ∀ (values : List ℚ) (st : SeriesStats), seriesStats values = some st →
      (∀ p ∈ [(50 : ℚ), 90, 95, 99], pIndex p values.length < values.length) ∧
      st.p50 = (sortedCopy values).getD (pIndex 50 values.length) 0 ∧
      st.p90 = (sortedCopy values).getD (pIndex 90 values.length) 0 ∧
      st.p95 = (sortedCopy values).getD (pIndex 95 values.length) 0 ∧
      st.p99 = (sortedCopy values).getD (pIndex 99 values.length) 0 := by
  refine ⟨fun p => rfl, ?_⟩
  intro values st h
  obtain ⟨hne, h50, h90, h95, h99, hcount⟩ := seriesStats_some h
  have hn : 0 < values.length := List.length_pos.mpr hne
  have hlen := sortedCopy_length values
  have hsne : sortedCopy values ≠ [] := by
    intro hnil
    rw [hnil] at hlen
    simp at hlen
    omega
  have hunf : ∀ p : ℚ, percentile (sortedCopy values) p =
      (sortedCopy values).getD (pIndex p values.length) 0 := by
    intro p
    unfold percentile
    rw [if_neg (by simpa [List.isEmpty_iff] using hsne), hlen]
  refine ⟨?_, ?_, ?_, ?_, ?_⟩
  · intro p hp
    fin_cases hp <;> exact pIndex_lt _ _ hn (by norm_num) (by norm_num)
  · rw [h50, hunf]
  · rw [h90, hunf]
  · rw [h95, hunf]
  · rw [h99, hunf]

/-- Witness for C4: the singleton series `[3]`. -/
theorem C4_witness :
    seriesStats [(3 : ℚ)] = some
      { avg := List.sum [(3 : ℚ)] / ((List.length [(3 : ℚ)] : ℕ) : ℚ),
        min := listMin [(3 : ℚ)], max := listMax [(3 : ℚ)],
        p50 := percentile (sortedCopy [(3 : ℚ)]) 50,
        p90 := percentile (sortedCopy [(3 : ℚ)]) 90,
        p95 := percentile (sortedCopy [(3 : ℚ)]) 95,
        p99 := percentile (sortedCopy [(3 : ℚ)]) 99,
        count := List.length [(3 : ℚ)] } ∧
    (99 : ℚ) ∈ [(50 : ℚ), 90, 95, 99] ∧
    pIndex 99 (List.length [(3 : ℚ)]) < List.length [(3 : ℚ)] := by
  have h : seriesStats [(3 : ℚ)] = some
      { avg := List.sum [(3 : ℚ)] / ((List.length [(3 : ℚ)] : ℕ) : ℚ),
        min := listMin [(3 : ℚ)], max := listMax [(3 : ℚ)],
        p50 := percentile (sortedCopy [(3 : ℚ)]) 50,
        p90 := percentile (sortedCopy [(3 : ℚ)]) 90,
        p95 := percentile (sortedCopy [(3 : ℚ)]) 95,
        p99 := percentile (sortedCopy [(3 : ℚ)]) 99,
        count := List.length [(3 : ℚ)] } := rfl
  have hmem : (99 : ℚ) ∈ [(50 : ℚ), 90, 95, 99] := by simp
  exact ⟨h, hmem, (C4_percentile_nearest_rank.2 [(3 : ℚ)] _ h).1 99 hmem⟩

/-- C5: for every non-empty series the reported percentiles satisfy
`p50 ≤ p90 ≤ p95 ≤ p99`, and on a constant series every reported
percentile equals the constant. -/
theorem C5_percentile_monotone_constant :
    ∀ (values : List ℚ) (st : SeriesStats), seriesStats values = some st →
      (st.p50 ≤ st.p90 ∧ st.p90 ≤ st.p95 ∧ st.p95 ≤ st.p99) ∧
      ∀ x : ℚ, (∀ v ∈ values, v = x) →
        st.p50 = x ∧ st.p90 = x ∧ st.p95 = x ∧ st.p99 = x := by
  intro values st h
  obtain ⟨hne, h50, h90, h95, h99, hcount⟩ := seriesStats_some h
  have hn : 0 < values.length := List.length_pos.mpr hne
  have hlen := sortedCopy_length values
  have hsne : sortedCopy values ≠ [] := by
    intro hnil
    rw [hnil] at hlen
    simp at hlen
    omega
  have hsorted := sortedCopy_sorted values
  constructor
  · refine ⟨?_, ?_, ?_⟩
    · rw [h50, h90]
      exact percentile_mono _ hsorted hsne (by norm_num) (by norm_num) (by norm_num)
    · rw [h90, h95]
      exact percentile_mono _ hsorted hsne (by norm_num) (by norm_num) (by norm_num)
    · rw [h95, h99]
      exact percentile_mono _ hsorted hsne (by norm_num) (by norm_num) (by norm_num)
  · intro x hx
    have hmemx : ∀ p : ℚ, 0 ≤ p → p ≤ 100 → percentile (sortedCopy values) p = x := by
      intro p hp0 hp1
      have hidx : pIndex p (sortedCopy values).length < (sortedCopy values).length := by
        rw [hlen]
        exact pIndex_lt p values.length hn hp0 hp1
      exact hx _ ((sortedCopy_perm values).subset (percentile_mem (sortedCopy values) p hsne hidx))
    rw [h50, h90, h95, h99]
    exact ⟨hmemx 50 (by norm_num) (by norm_num), hmemx 90 (by norm_num) (by norm_num),
      hmemx 95 (by norm_num) (by norm_num), hmemx 99 (by norm_num) (by norm_num)⟩

/-- Witness for C5: the constant singleton series `[3]`. -/
theorem C5_witness :
    seriesStats [(3 : ℚ)] = some
      { avg := List.sum [(3 : ℚ)] / ((List.length [(3 : ℚ)] : ℕ) : ℚ),
        min := listMin [(3 : ℚ)], max := listMax [(3 : ℚ)],
        p50 := percentile (sortedCopy [(3 : ℚ)]) 50,
        p90 := percentile (sortedCopy [(3 : ℚ)]) 90,
        p95 := percentile (sortedCopy [(3 : ℚ)]) 95,
        p99 := percentile (sortedCopy [(3 : ℚ)]) 99,
        count := List.length [(3 : ℚ)] } ∧
    percentile (sortedCopy [(3 : ℚ)]) 50 ≤ percentile (sortedCopy [(3 : ℚ)]) 90 := by
  have h : seriesStats [(3 : ℚ)] = some
      { avg := List.sum [(3 : ℚ)] / ((List.length [(3 : ℚ)] : ℕ) : ℚ),
        min := listMin [(3 : ℚ)], max := listMax [(3 : ℚ)],
        p50 := percentile (sortedCopy [(3 : ℚ)]) 50,
        p90 := percentile (sortedCopy [(3 : ℚ)]) 90,
        p95 := percentile (sortedCopy [(3 : ℚ)]) 95,
        p99 := percentile (sortedCopy [(3 : ℚ)]) 99,
        count := List.length [(3 : ℚ)] } := rfl
  exact ⟨h, ((C5_percentile_monotone_constant [(3 : ℚ)] _ h).1).1⟩

/-- C6: threshold evaluation fails soft.  A metric path that does not
split into exactly two parts, a group or statistic absent from the summary
view, or an expression operand that does not parse as a number each make
that threshold alone evaluate to `false` (with a logged warning) — the
evaluator is a total Boolean function and never errors the run — while on
well-formed input the comparison follows the operator in
`{<, <=, >, >=, ==, !=}`: with `response_time.avg = 0.3` the expression
`"< 0.5"` passes and `"< 0.2"` fails. -/
theorem C6_evaluate_threshold_fails_soft :
    (∀ (m : MetricGroups) (t : Threshold),
      (metricParts t).length ≠ 2 → evaluate_threshold m t = false) ∧
    (∀ (m : MetricGroups) (metric_name metric_type : String),
      (m.find? (fun g => g.1 == metric_name)).map (fun g => g.2) = none →
      lookupStat m metric_name metric_type = none) ∧
    (∀ (m : MetricGroups) (metric_name metric_type : String)
      (group : List (String × Option ℚ)),
      (m.find? (fun g => g.1 == metric_name)).map (fun g => g.2) = some group →
      (group.find? (fun nv => nv.1 == metric_type)).map (fun nv => nv.2) = none →
      lookupStat m metric_name metric_type = none) ∧
    (∀ (m : MetricGroups) (t : Threshold),
      thresholdStat m t = none → evaluate_threshold m t = false) ∧
    (∀ (m : MetricGroups) (t : Threshold) (v : Option ℚ),
      thresholdStat m t = some v → thresholdOperand t = none →
      evaluate_threshold m t = false) ∧
    (∀ (m : MetricGroups) (t : Threshold) (v : Option ℚ) (tv : ℚ),
      (metricParts t).length = 2 → thresholdStat m t = some v →
      (exprTokens t).length = 2 → thresholdOperand t = some tv →
      evaluate_threshold m t = applyOp (thresholdOperator t) (v.getD 0) tv) ∧
    evaluate_threshold [("response_time", [("avg", some ((3 : ℚ) / 10))])]
      { metric := "response_time.avg", expression := "< 0.5", abort_on_fail := false } =
      true ∧
    evaluate_threshold [("response_time", [("avg", some ((3 : ℚ) / 10))])]
      { metric := "response_time.avg", expression := "< 0.2", abort_on_fail := false } =
      false := by
  refine ⟨?_, ?_, ?_, ?_, ?_, ?_, ?_, ?_⟩
  · intro m t h
    simp only [evaluate_threshold]
    rw [if_pos h]
  · intro m gname sname h
    simp only [lookupStat, h]
  · intro m gname sname group hg h
    simp only [lookupStat, hg, h]
  · intro m t h
    simp only [evaluate_threshold]
    by_cases hc : (metricParts t).length ≠ 2
    · rw [if_pos hc]
    · rw [if_neg hc]
      simp only [h]
  · intro m t v hstat hparse
    simp only [evaluate_threshold]
    by_cases hc : (metricParts t).length ≠ 2
    · rw [if_pos hc]
    · rw [if_neg hc]
      simp only [hstat]
      by_cases he : (exprTokens t).length ≠ 2
      · rw [if_pos he]
      · rw [if_neg he]
        simp only [hparse]
  · intro m t v tv hlen hstat helen hparse
    simp only [evaluate_threshold]
    rw [if_neg (by omega)]
    simp only [hstat]
    rw [if_neg (by omega)]
    simp only [hparse]
  · have e1 : evaluate_threshold [("response_time", [("avg", some ((3 : ℚ) / 10))])]
        { metric := "response_time.avg", expression := "< 0.5", abort_on_fail := false } =
        decide ((3 : ℚ) / 10 <
          (digitsToNat ['0'] : ℚ) +
            (digitsToNat ['5'] : ℚ) / (10 : ℚ) ^ (['5'] : List Char).length) := rfl
    have h0 : digitsToNat ['0'] = 0 := rfl
    have h5 : digitsToNat ['5'] = 5 := rfl
    have hl : (['5'] : List Char).length = 1 := rfl
    rw [e1, h0, h5, hl]
    norm_num
  · have e2 : evaluate_threshold [("response_time", [("avg", some ((3 : ℚ) / 10))])]
        { metric := "response_time.avg", expression := "< 0.2", abort_on_fail := false } =
        decide ((3 : ℚ) / 10 <
          (digitsToNat ['0'] : ℚ) +
            (digitsToNat ['2'] : ℚ) / (10 : ℚ) ^ (['2'] : List Char).length) := rfl
    have h0 : digitsToNat ['0'] = 0 := rfl
    have h2 : digitsToNat ['2'] = 2 := rfl
    have hl : (['2'] : List Char).length = 1 := rfl
    rw [e2, h0, h2, hl]
    norm_num

/-- Witness for C6: each failure clause applied at a concrete malformed
threshold, plus the well-formed comparison clause at the worked example. -/
theorem C6_witness :
    (metricParts (⟨"response_time", "< 0.5", false⟩ : Threshold)).length ≠ 2 ∧
    evaluate_threshold [] ⟨"response_time", "< 0.5", false⟩ = false ∧
    lookupStat [] "nope" "avg" = none ∧
    lookupStat [("response_time", [])] "response_time" "missing" = none ∧
    evaluate_threshold [("response_time", [])]
      ⟨"response_time.missing", "< 0.5", false⟩ = false ∧
    evaluate_threshold [("response_time", [("avg", some ((3 : ℚ) / 10))])]
      ⟨"response_time.avg", "< abc", false⟩ = false ∧
    evaluate_threshold [("response_time", [("avg", some ((3 : ℚ) / 10))])]
      ⟨"response_time.avg", "< 0.5", false⟩ =
      applyOp (thresholdOperator (⟨"response_time.avg", "< 0.5", false⟩ : Threshold))
        ((some ((3 : ℚ) / 10)).getD 0)
        ((digitsToNat ['0'] : ℚ) +
          (digitsToNat ['5'] : ℚ) / (10 : ℚ) ^ (['5'] : List Char).length) := by
  have hp : (metricParts (⟨"response_time", "< 0.5", false⟩ : Threshold)).length ≠ 2 := by
    decide
  refine ⟨hp, ?_, ?_, ?_, ?_, ?_, ?_⟩
  · exact C6_evaluate_threshold_fails_soft.1 [] ⟨"response_time", "< 0.5", false⟩ hp
  · exact C6_evaluate_threshold_fails_soft.2.1 [] "nope" "avg" rfl
  · exact C6_evaluate_threshold_fails_soft.2.2.1 [("response_time", [])]
      "response_time" "missing" [] rfl rfl
  · exact C6_evaluate_threshold_fails_soft.2.2.2.1 [("response_time", [])]
      ⟨"response_time.missing", "< 0.5", false⟩ rfl
  · exact C6_evaluate_threshold_fails_soft.2.2.2.2.1
      [("response_time", [("avg", some ((3 : ℚ) / 10))])]
      ⟨"response_time.avg", "< abc", false⟩ (some ((3 : ℚ) / 10)) rfl rfl
  · exact C6_evaluate_threshold_fails_soft.2.2.2.2.2.1
      [("response_time", [("avg", some ((3 : ℚ) / 10))])]
      ⟨"response_time.avg", "< 0.5", false⟩ (some ((3 : ℚ) / 10))
      ((digitsToNat ['0'] : ℚ) +
        (digitsToNat ['5'] : ℚ) / (10 : ℚ) ^ (['5'] : List Char).length)
      rfl rfl rfl rfl

end QitOps


